import Mathlib

/-
  Formal model of the client-side transaction-analysis pipeline
  (functions parseCSV, calculateStats, calculateCorrelations and
  analyzeTransactionData of the upload manager module).

  Modelling conventions:
  - JavaScript numbers are modelled as exact rationals.  A numeric literal in
    the source denotes its exact decimal value.  NaN is modelled as the value
    none of an Option type, and the signed infinities produced by division by
    zero or by parseFloat of an Infinity literal get their own constructor.
  - JavaScript strings are Lean strings; the character-level helpers work on
    the underlying character list.
  - Math.random is modelled by passing an explicit stream of draw values; a
    theorem that depends on randomness quantifies over every stream whose
    values lie in the interval of Math.random, which is 0 inclusive to 1
    exclusive.
  - The runtime TypeError raised by accessing a property of undefined is
    modelled by an explicit error constructor of an Except result.
-/

namespace FraudDetection

/-- JsNum is a defined (non-NaN) JavaScript number: a finite value, modelled
as an exact rational, or a signed infinity. -/
inductive JsNum where
  | fin (q : ℚ)
  | inf (neg : Bool)
deriving DecidableEq

/-- CellValue is one parsed field of a data row: either a number (when
parseFloat succeeded on the field) or the raw string. -/
inductive CellValue where
  | num (n : JsNum)
  | str (s : String)
deriving DecidableEq

/-- jsWhitespace lists the whitespace characters recognised by the JavaScript
string trim and by the leading-whitespace skip of parseFloat. -/
def jsWhitespace (c : Char) : Bool :=
  c = ' ' || c = '\t' || c = '\n' || c = '\r' || c = '\x0b' || c = '\x0c'

/-- jsTrim models String.prototype.trim: it removes leading and trailing
whitespace characters. -/
def jsTrim (s : String) : String :=
  String.mk (((s.data.dropWhile jsWhitespace).reverse.dropWhile jsWhitespace).reverse)

/-- splitSep models String.prototype.split with a single-character separator:
the input is cut at every occurrence of the separator, and adjacent
separators produce empty segments. -/
def splitSep (sep : Char) : List Char → List (List Char)
  | [] => [[]]
  | c :: cs =>
    if c = sep then [] :: splitSep sep cs
    else
      match splitSep sep cs with
      | [] => [[c]]
      | g :: gs => (c :: g) :: gs

/-- jsSplit wraps splitSep back into strings. -/
def jsSplit (sep : Char) (s : String) : List String :=
  (splitSep sep s.data).map String.mk

/-- spanDigits splits a character list into its longest prefix of decimal
digits and the remainder. -/
def spanDigits : List Char → List Char × List Char
  | [] => ([], [])
  | c :: cs =>
    if c.isDigit then
      match spanDigits cs with
      | (ds, rest) => (c :: ds, rest)
    else ([], c :: cs)

/-- digitsToNat reads a list of decimal digits as a natural number. -/
def digitsToNat (ds : List Char) : ℕ :=
  ds.foldl (fun a c => a * 10 + (c.toNat - 48)) 0

/-- signSplit consumes an optional leading sign character and reports whether
it was a minus sign. -/
def signSplit : List Char → Bool × List Char
  | [] => (false, [])
  | c :: rest =>
    if c = '-' then (true, rest)
    else if c = '+' then (false, rest)
    else (false, c :: rest)

/-- expPart reads an optional exponent part (an e or E, an optional sign and
at least one digit) and returns the signed exponent, or zero when no
well-formed exponent follows. -/
def expPart (cs : List Char) : ℤ :=
  match cs with
  | c :: rest =>
    if c = 'e' || c = 'E' then
      match signSplit rest with
      | (eneg, rest2) =>
        match spanDigits rest2 with
        | (eds, _) =>
          if eds = [] then 0
          else if eneg then -(digitsToNat eds : ℤ) else (digitsToNat eds : ℤ)
    else 0
  | [] => 0

/-- fracPart reads an optional decimal point followed by further digits,
returning those digits and the remainder. -/
def fracPart : List Char → List Char × List Char
  | [] => ([], [])
  | c :: rest => if c = '.' then spanDigits rest else ([], c :: rest)

/-- FloatSyn is the syntactic shape of a successful parseFloat: the word
Infinity with its sign, or a finite numeral given by its sign, the natural
number read from all its mantissa digits, the number of digits after the
decimal point, and the signed exponent. -/
inductive FloatSyn where
  | infinity (neg : Bool)
  | finite (neg : Bool) (digits : ℕ) (fracLen : ℕ) (ex : ℤ)
deriving DecidableEq

/-- parseFloatSyn is the syntactic phase of parseFloat: it skips leading
whitespace, reads an optional sign, then the longest prefix that is a
decimal numeral (digits, an optional decimal point with further digits, an
optional exponent) or the word Infinity.  It returns none, the model of NaN,
when no numeral prefix exists.  A field whose prefix but not whole text is
numeric therefore still parses, to the value of that prefix. -/
def parseFloatSyn (s : String) : Option FloatSyn :=
  let sp := signSplit (s.data.dropWhile jsWhitespace)
  let neg := sp.1
  let cs := sp.2
  if cs.take 8 = "Infinity".data then some (FloatSyn.infinity neg)
  else
    let ds1 := (spanDigits cs).1
    let cs1 := (spanDigits cs).2
    let ds2 := (fracPart cs1).1
    let cs2 := (fracPart cs1).2
    if ds1 = [] ∧ ds2 = [] then none
    else some (FloatSyn.finite neg (digitsToNat (ds1 ++ ds2)) ds2.length (expPart cs2))

/-- synValue is the numeric value of a parsed floating-point shape: the
mantissa digits scaled down by the fraction length, negated by the sign and
scaled by the power of ten of the exponent. -/
def synValue : FloatSyn → JsNum
  | FloatSyn.infinity neg => JsNum.inf neg
  | FloatSyn.finite neg m k e =>
    let mant : ℚ := (m : ℚ) / (10 : ℚ) ^ k
    JsNum.fin ((if neg then -mant else mant) * (10 : ℚ) ^ e)

/-- jsParseFloat models the JavaScript parseFloat function as the value of
the syntactic parse. -/
def jsParseFloat (s : String) : Option JsNum :=
  (parseFloatSyn s).map synValue

/-- stripQuotes models the quoted-field handling of the parser: a field that
starts and ends with a double quote has those outer characters removed by
substring of 1 and length minus 1.  For a single double-quote character the
JavaScript substring call swaps its arguments and returns the field
unchanged. -/
def stripQuotes (value : String) : String :=
  if value.data.head? = some '"' ∧ value.data.getLast? = some '"' then
    if value.data.length ≤ 1 then value
    else String.mk ((value.data.drop 1).dropLast)
  else value

/-- convertValue models the opportunistic numeric conversion of one field:
the quoted-field stripping has already been applied; if parseFloat yields a
number, that number is stored, otherwise the string itself is stored,
without any trimming. -/
def convertValue (value : String) : CellValue :=
  match jsParseFloat value with
  | some n => CellValue.num n
  | none => CellValue.str value

/-- RawTable is the parse result: the trimmed header names and the rows,
each row holding exactly one positional value per header. -/
structure RawTable where
  headers : List String
  data : List (List CellValue)
  totalRows : ℕ
deriving DecidableEq

/-- JsError distinguishes the runtime failures relevant here: the TypeError
raised by reading a property of undefined, and the ParseError kind named by
the design document (which no code path of the module ever raises). -/
inductive JsError where
  | typeError
  | parseError
deriving DecidableEq

/-- parseRow builds one row from a data line: the line is split on commas,
and for every header position the corresponding field (the empty string when
the line has fewer fields) is unquoted and converted.  Fields beyond the
header count are ignored. -/
def parseRow (headers : List String) (line : String) : List CellValue :=
  (List.range headers.length).map fun j =>
    convertValue (stripQuotes ((jsSplit ',' line).getD j ""))

/-- parseCSV models the parseCSV function: the text is split on line breaks,
blank lines are dropped, the first remaining line is split into trimmed
headers and every further line becomes a row.  When every line is blank the
source reads lines at index 0, which is undefined, and calling split on it
raises a TypeError. -/
def parseCSV (csvData : String) : Except JsError RawTable :=
  let lines := (jsSplit '\n' csvData).filter (fun l => !(jsTrim l == ""))
  match lines with
  | [] => Except.error JsError.typeError
  | firstLine :: rest =>
    let headers := (jsSplit ',' firstLine).map jsTrim
    let data := rest.map (parseRow headers)
    Except.ok { headers := headers, data := data, totalRows := data.length }

/-- rowLookup models reading a property of the row object: the row object is
built by assigning the value of position j to the key headers j in order, so
a later assignment to the same key overwrites an earlier one, and a key that
is not among the headers reads as undefined (none). -/
def rowLookup (headers : List String) (row : List CellValue) (name : String) : Option CellValue :=
  (headers.zip row).foldl (fun acc p => if p.1 = name then some p.2 else acc) none

/-- isClassFraud models the strict comparison row.Class === 1 or
row.Class === '1': true exactly for the number 1 and for the string "1";
every other value, including undefined, an empty cell and a non-numeric
string, compares false. -/
def isClassFraud : Option CellValue → Bool
  | some (CellValue.num (JsNum.fin q)) => decide (q = 1)
  | some (CellValue.str s) => decide (s = "1")
  | _ => false

/-- jsRound models Math.round, which rounds half toward positive infinity. -/
def jsRound (q : ℚ) : ℤ := ⌊q + 1 / 2⌋

/-- jsDiv models JavaScript division: division by zero yields a signed
infinity, except that zero divided by zero yields NaN (none). -/
def jsDiv (a b : ℚ) : Option JsNum :=
  if b = 0 then
    if a = 0 then none
    else some (JsNum.inf (decide (a < 0)))
  else some (JsNum.fin (a / b))

/-- insertAsc inserts a value into an ascending list, keeping it ascending. -/
def insertAsc (x : ℚ) : List ℚ → List ℚ
  | [] => [x]
  | y :: ys => if x ≤ y then x :: y :: ys else y :: insertAsc x ys

/-- sortAsc sorts a list of numbers ascending, as the numeric comparator
sort of the source does. -/
def sortAsc : List ℚ → List ℚ
  | [] => []
  | x :: xs => insertAsc x (sortAsc xs)

/-- jsMin models Math.min applied to the elements of a nonempty list; the
default for the empty list is irrelevant at its one call site. -/
def jsMin : List ℚ → ℚ
  | [] => 0
  | x :: xs => xs.foldl min x

/-- jsMax models Math.max applied to the elements of a nonempty list. -/
def jsMax : List ℚ → ℚ
  | [] => 0
  | x :: xs => xs.foldl max x

/-- Stats is the result record of calculateStats.  The source stores the
square root of the sample variance in its std field; since that root is
irrational in general, the model keeps the radicand: variance none models a
NaN std (the square root of NaN is NaN), and variance (some (JsNum.fin v))
models a std equal to the nonnegative square root of v — in particular the
std is 0 exactly when the variance is the finite value 0. -/
structure Stats where
  min : ℚ
  max : ℚ
  mean : ℚ
  median : ℚ
  variance : Option JsNum
deriving DecidableEq

/-- calculateStats models the calculateStats function on a numeric column:
the empty input returns all zeros (the source returns std 0 directly, so the
variance field is the finite 0); otherwise the values are sorted, the mean is
the arithmetic mean, the variance divides the sum of squared deviations by
length minus one — which for a single value is 0 divided by 0, NaN — and the
median is the middle element or the average of the two middle elements. -/
def calculateStats (values : List ℚ) : Stats :=
  match values with
  | [] => { min := 0, max := 0, mean := 0, median := 0, variance := some (JsNum.fin 0) }
  | v :: vs =>
    let sorted := sortAsc (v :: vs)
    let sum := sorted.foldl (· + ·) 0
    let mean := sum / (sorted.length : ℚ)
    let squaredDiffs := sorted.map (fun x => (x - mean) ^ 2)
    let variance := jsDiv (squaredDiffs.foldl (· + ·) 0) ((sorted.length : ℚ) - 1)
    let mid := sorted.length / 2
    let median :=
      if sorted.length % 2 ≠ 0 then sorted.getD mid 0
      else (sorted.getD (mid - 1) 0 + sorted.getD mid 0) / 2
    { min := jsMin sorted, max := jsMax sorted, mean := mean, median := median,
      variance := variance }

/-- Correlations is the result record of calculateCorrelations. -/
structure Correlations where
  features : List String
  matrix : List (List ℚ)
deriving DecidableEq

/-- corrUpper is the strict-upper-triangle cell of the correlation matrix: a
random draw scaled to the half-open interval from -0.5 to 0.9 and rounded to
two decimals. -/
def corrUpper (rand : ℕ → ℕ → ℚ) (i j : ℕ) : ℚ :=
  (jsRound ((rand i j * 1.4 - 0.5) * 100) : ℚ) / 100

/-- corrEntry is one cell of the correlation matrix: 1 on the diagonal, the
random placeholder above it, and below it the mirror of the already-computed
cell of the upper triangle. -/
def corrEntry (rand : ℕ → ℕ → ℚ) (i j : ℕ) : ℚ :=
  if i = j then 1
  else if i < j then corrUpper rand i j
  else corrUpper rand j i

/-- calculateCorrelations models the calculateCorrelations function.  The
source reads only the keys of its features object, never the collected
value lists, so the model is polymorphic in the value component.  Each
random draw of the upper triangle is indexed by its cell position. -/
def calculateCorrelations {α : Type} (features : List (String × α))
    (rand : ℕ → ℕ → ℚ) : Correlations :=
  let featureNames := features.map Prod.fst
  let n := featureNames.length
  { features := featureNames,
    matrix := (List.range n).map fun i => (List.range n).map fun j => corrEntry rand i j }

/-- ConfusionMatrix holds the four confusion counts of the metrics block. -/
structure ConfusionMatrix where
  truePositives : ℤ
  falsePositives : ℤ
  trueNegatives : ℤ
  falseNegatives : ℤ
deriving DecidableEq

/-- Metrics is the metrics record of the analysis result; the four rates are
written into it as literal constants by the source. -/
structure Metrics where
  accuracy : ℚ
  precision : ℚ
  «recall» : ℚ
  f1Score : ℚ
  confusionMatrix : ConfusionMatrix
deriving DecidableEq

/-- Outcome is the per-row resolved label and confidence that the source
attaches to each row object. -/
structure Outcome where
  isFraudulent : Bool
  confidence : ℚ
deriving DecidableEq

/-- AnalysisResult gathers the fields of the analysis result that carry
numeric content: the totals, the class tallies, the metrics with the
confusion matrix, the per-row outcomes in row order, and the correlation
matrix.  The amount statistics (calculateStats over the collected Amount
column, modelled separately) and the formatted sample-transaction strings
are presentation data not modelled here. -/
structure AnalysisResult where
  totalTransactions : ℕ
  genuineCount : ℕ
  fraudulentCount : ℕ
  metrics : Metrics
  outcomes : List Outcome
  correlations : Correlations
deriving DecidableEq

/-- vFeatureNames is the fixed key list V1 to V28 that the source initialises
the features object with, independent of the table contents. -/
def vFeatureNames : List String :=
  (List.range 28).map fun i => "V" ++ toString (i + 1)

/-- analyzeTransactionData models the analyzeTransactionData function.  The
class tallies count rows whose Class cell compares strictly equal to 1 or
"1" when the Class header is present.  Without a Class header the counts are
overwritten by the simulated split: floor of a fifth of the rows fraudulent,
the rest genuine, the first rows in source order flagged, confidences one
uniform draw scaled to 100.  With a Class header each row keeps its own
label and draws its confidence as max 70 of the draw times 100 when
fraudulent, min 30 of it otherwise.  The metrics are the literal constants
of the source and the confusion counts are rounded fixed fractions of the
tallies.  randConf gives the per-row confidence draw and randCorr the
per-cell correlation draw. -/
def analyzeTransactionData (table : RawTable) (randConf : ℕ → ℚ)
    (randCorr : ℕ → ℕ → ℚ) : AnalysisResult :=
  let headers := table.headers
  let rows := table.data
  let hasClass := headers.contains "Class"
  let classFraud := fun row => isClassFraud (rowLookup headers row "Class")
  let tallyFraud := rows.countP fun row => hasClass && classFraud row
  let tallyGenuine := rows.countP fun row => hasClass && !(classFraud row)
  let fraudulentCount :=
    if !hasClass then (⌊(rows.length : ℚ) * 0.2⌋).toNat else tallyFraud
  let genuineCount :=
    if !hasClass then rows.length - fraudulentCount else tallyGenuine
  let outcomes :=
    if !hasClass then
      rows.enum.map fun p =>
        { isFraudulent := decide (p.1 < fraudulentCount)
          confidence := randConf p.1 * 100 }
    else
      rows.enum.map fun p =>
        { isFraudulent := classFraud p.2
          confidence :=
            if classFraud p.2 then max 70 (randConf p.1 * 100)
            else min 30 (randConf p.1 * 100) }
  { totalTransactions := rows.length
    genuineCount := genuineCount
    fraudulentCount := fraudulentCount
    metrics :=
      { accuracy := 0.98
        precision := 0.96
        «recall» := 0.92
        f1Score := 0.94
        confusionMatrix :=
          { truePositives := jsRound ((fraudulentCount : ℚ) * 0.92)
            falsePositives := jsRound ((genuineCount : ℚ) * 0.01)
            trueNegatives := jsRound ((genuineCount : ℚ) * 0.99)
            falseNegatives := jsRound ((fraudulentCount : ℚ) * 0.08) } }
    outcomes := outcomes
    correlations := calculateCorrelations (vFeatureNames.map fun nm => (nm, ())) randCorr }

/-! Helper lemmas. -/

/-- jsRound of a natural count scaled by 0.92 reduces to natural division. -/
theorem jsRound_q92 (m : ℕ) : jsRound ((m : ℚ) * 0.92) = ((92 * m + 50) / 100 : ℕ) := by
  unfold jsRound
  have h : (m : ℚ) * 0.92 + 1 / 2 = ((92 * m + 50 : ℕ) : ℚ) / ((100 : ℕ) : ℚ) := by
    push_cast
    rw [show (0.92 : ℚ) = 92 / 100 by norm_num]
    ring
  rw [h, Rat.floor_natCast_div_natCast]
  omega

/-- jsRound of a natural count scaled by 0.01 reduces to natural division. -/
theorem jsRound_q01 (m : ℕ) : jsRound ((m : ℚ) * 0.01) = ((1 * m + 50) / 100 : ℕ) := by
  unfold jsRound
  have h : (m : ℚ) * 0.01 + 1 / 2 = ((1 * m + 50 : ℕ) : ℚ) / ((100 : ℕ) : ℚ) := by
    push_cast
    rw [show (0.01 : ℚ) = 1 / 100 by norm_num]
    ring
  rw [h, Rat.floor_natCast_div_natCast]
  omega

/-- jsRound of a natural count scaled by 0.99 reduces to natural division. -/
theorem jsRound_q99 (m : ℕ) : jsRound ((m : ℚ) * 0.99) = ((99 * m + 50) / 100 : ℕ) := by
  unfold jsRound
  have h : (m : ℚ) * 0.99 + 1 / 2 = ((99 * m + 50 : ℕ) : ℚ) / ((100 : ℕ) : ℚ) := by
    push_cast
    rw [show (0.99 : ℚ) = 99 / 100 by norm_num]
    ring
  rw [h, Rat.floor_natCast_div_natCast]
  omega

/-- jsRound of a natural count scaled by 0.08 reduces to natural division. -/
theorem jsRound_q08 (m : ℕ) : jsRound ((m : ℚ) * 0.08) = ((8 * m + 50) / 100 : ℕ) := by
  unfold jsRound
  have h : (m : ℚ) * 0.08 + 1 / 2 = ((8 * m + 50 : ℕ) : ℚ) / ((100 : ℕ) : ℚ) := by
    push_cast
    rw [show (0.08 : ℚ) = 8 / 100 by norm_num]
    ring
  rw [h, Rat.floor_natCast_div_natCast]
  omega

/-- floor of a natural count scaled by 0.2 reduces to natural division. -/
theorem floor_q02 (m : ℕ) : ⌊(m : ℚ) * 0.2⌋ = ((2 * m) / 10 : ℕ) := by
  have h : (m : ℚ) * 0.2 = ((2 * m : ℕ) : ℚ) / ((10 : ℕ) : ℚ) := by
    push_cast
    rw [show (0.2 : ℚ) = 2 / 10 by norm_num]
    ring
  rw [h, Rat.floor_natCast_div_natCast]
  omega

/-- countP over a replicated list counts everything or nothing. -/
theorem countP_replicate {α : Type} (p : α → Bool) (n : ℕ) (a : α) :
    (List.replicate n a).countP p = if p a then n else 0 := by
  induction n with
  | zero => simp
  | succ k ih =>
    rw [List.replicate_succ, List.countP_cons, ih]
    by_cases h : p a <;> simp [h]

/-- scenarioTable is the parse of the three-row labelled example input used
by the design document. -/
def scenarioTable : RawTable :=
  { headers := ["Time", "Amount", "Class"]
    data :=
      [[CellValue.num (JsNum.fin 0), CellValue.num (JsNum.fin 100), CellValue.num (JsNum.fin 1)],
       [CellValue.num (JsNum.fin 0), CellValue.num (JsNum.fin 50), CellValue.num (JsNum.fin 0)],
       [CellValue.num (JsNum.fin 0), CellValue.num (JsNum.fin 75), CellValue.num (JsNum.fin 0)]]
    totalRows := 3 }

/-- parseCSV on the example input produces scenarioTable, so the runs built
from scenarioTable below are reachable from a real upload. -/
theorem parseCSV_scenario :
    parseCSV "Time,Amount,Class\n0,100,1\n0,50,0\n0,75,0" = Except.ok scenarioTable := by
  have h1 : (jsSplit '\n' "Time,Amount,Class\n0,100,1\n0,50,0\n0,75,0").filter
      (fun l => !(jsTrim l == "")) = ["Time,Amount,Class", "0,100,1", "0,50,0", "0,75,0"] := by
    decide
  have h2 : (jsSplit ',' "Time,Amount,Class").map jsTrim = ["Time", "Amount", "Class"] := by decide
  have h5 : List.range 3 = [0, 1, 2] := by decide
  have e0 : ∀ line : String, parseRow ["Time", "Amount", "Class"] line =
      [convertValue (stripQuotes ((jsSplit ',' line).getD 0 "")),
       convertValue (stripQuotes ((jsSplit ',' line).getD 1 "")),
       convertValue (stripQuotes ((jsSplit ',' line).getD 2 ""))] := by
    intro line
    simp [parseRow, h5]
  have hq : ∀ s : String, ∀ m : ℕ, parseFloatSyn s = some (FloatSyn.finite false m 0 0) →
      convertValue s = CellValue.num (JsNum.fin m) := by
    intro s m h
    rw [convertValue, jsParseFloat, h]
    simp [synValue]
  have c0 : convertValue "0" = CellValue.num (JsNum.fin 0) := by
    have := hq "0" 0 (by decide)
    simpa using this
  have c1 : convertValue "1" = CellValue.num (JsNum.fin 1) := by
    have := hq "1" 1 (by decide)
    simpa using this
  have c50 : convertValue "50" = CellValue.num (JsNum.fin 50) := by
    have := hq "50" 50 (by decide)
    simpa using this
  have c75 : convertValue "75" = CellValue.num (JsNum.fin 75) := by
    have := hq "75" 75 (by decide)
    simpa using this
  have c100 : convertValue "100" = CellValue.num (JsNum.fin 100) := by
    have := hq "100" 100 (by decide)
    simpa using this
  have s1 : ∀ line : String, ∀ f0 f1 f2 : String, jsSplit ',' line = [f0, f1, f2] →
      parseRow ["Time", "Amount", "Class"] line =
        [convertValue (stripQuotes f0), convertValue (stripQuotes f1),
         convertValue (stripQuotes f2)] := by
    intro line f0 f1 f2 h
    rw [e0, h]
    simp
  have r1 := s1 "0,100,1" "0" "100" "1" (by decide)
  have r2 := s1 "0,50,0" "0" "50" "0" (by decide)
  have r3 := s1 "0,75,0" "0" "75" "0" (by decide)
  have sq : ∀ s : String, s.data.head? ≠ some '"' → stripQuotes s = s := by
    intro s h
    rw [stripQuotes, if_neg]
    intro hc
    exact h hc.1
  rw [parseCSV]
  simp only [h1, h2, List.map_cons, List.map_nil]
  rw [r1, r2, r3]
  simp only [sq "0" (by decide), sq "1" (by decide), sq "50" (by decide), sq "75" (by decide),
    sq "100" (by decide), c0, c1, c50, c75, c100]
  simp [scenarioTable]

/-- C1 counterexample run: the analysis of scenarioTable with any fixed
random stream. -/
theorem c1_counterexample :
    parseCSV "Time,Amount,Class\n0,100,1\n0,50,0\n0,75,0" = Except.ok scenarioTable ∧
    (analyzeTransactionData scenarioTable (fun _ => 0) (fun _ _ => 0)).metrics.accuracy ≠
      (((analyzeTransactionData scenarioTable (fun _ => 0) (fun _ _ => 0)).metrics.confusionMatrix.truePositives +
        (analyzeTransactionData scenarioTable (fun _ => 0) (fun _ _ => 0)).metrics.confusionMatrix.trueNegatives : ℤ) : ℚ) /
        ((analyzeTransactionData scenarioTable (fun _ => 0) (fun _ _ => 0)).totalTransactions : ℚ) := by
  refine ⟨parseCSV_scenario, ?_⟩
  have hf : List.countP
      (fun row => isClassFraud (rowLookup ["Time", "Amount", "Class"] row "Class"))
      [[CellValue.num (JsNum.fin 0), CellValue.num (JsNum.fin 100), CellValue.num (JsNum.fin 1)],
       [CellValue.num (JsNum.fin 0), CellValue.num (JsNum.fin 50), CellValue.num (JsNum.fin 0)],
       [CellValue.num (JsNum.fin 0), CellValue.num (JsNum.fin 75), CellValue.num (JsNum.fin 0)]] = 1 := by
    decide
  have hg : List.countP
      (fun row => !isClassFraud (rowLookup ["Time", "Amount", "Class"] row "Class"))
      [[CellValue.num (JsNum.fin 0), CellValue.num (JsNum.fin 100), CellValue.num (JsNum.fin 1)],
       [CellValue.num (JsNum.fin 0), CellValue.num (JsNum.fin 50), CellValue.num (JsNum.fin 0)],
       [CellValue.num (JsNum.fin 0), CellValue.num (JsNum.fin 75), CellValue.num (JsNum.fin 0)]] = 2 := by
    decide
  have hc : scenarioTable.headers.contains "Class" = true := by decide
  simp only [analyzeTransactionData, hc, Bool.not_true, Bool.false_eq_true, if_false,
    Bool.true_and]
  norm_num [jsRound, scenarioTable, hf, hg]

/-- C1 (amended): for every resolved run the aggregated rates are the fixed
constants 0.98, 0.96, 0.92 and 0.94 written by the source, independent of
the confusion counts; each of them lies in the closed interval from 0 to
1.  They are not computed from the confusion counts by the stated formulas
(see the counterexample), and in particular they stay at those constants
even when a denominator of the stated formulas is 0. -/
theorem c1_metrics_constants (table : RawTable) (randConf : ℕ → ℚ) (randCorr : ℕ → ℕ → ℚ) :
    (analyzeTransactionData table randConf randCorr).metrics.accuracy = 0.98 ∧
    (analyzeTransactionData table randConf randCorr).metrics.precision = 0.96 ∧
    (analyzeTransactionData table randConf randCorr).metrics.«recall» = 0.92 ∧
    (analyzeTransactionData table randConf randCorr).metrics.f1Score = 0.94 ∧
    (0 ≤ (analyzeTransactionData table randConf randCorr).metrics.accuracy ∧
      (analyzeTransactionData table randConf randCorr).metrics.accuracy ≤ 1) ∧
    (0 ≤ (analyzeTransactionData table randConf randCorr).metrics.precision ∧
      (analyzeTransactionData table randConf randCorr).metrics.precision ≤ 1) ∧
    (0 ≤ (analyzeTransactionData table randConf randCorr).metrics.«recall» ∧
      (analyzeTransactionData table randConf randCorr).metrics.«recall» ≤ 1) ∧
    (0 ≤ (analyzeTransactionData table randConf randCorr).metrics.f1Score ∧
      (analyzeTransactionData table randConf randCorr).metrics.f1Score ≤ 1) := by
  simp only [analyzeTransactionData]
  norm_num

/-- table50 is a labelled table of fifty genuine rows, the parse of an
upload with a Class header and fifty rows of class 0. -/
def table50 : RawTable :=
  { headers := ["Class"]
    data := List.replicate 50 [CellValue.num (JsNum.fin 0)]
    totalRows := 50 }

/-- C2 counterexample: on the run over fifty genuine labelled rows the
trueNegatives plus falsePositives is 51, one more than the genuine tally of
50, because 49.5 and 0.5 both round up. -/
theorem c2_counterexample :
    (analyzeTransactionData table50 (fun _ => 0) (fun _ _ => 0)).genuineCount = 50 ∧
    (analyzeTransactionData table50 (fun _ => 0) (fun _ _ => 0)).metrics.confusionMatrix.trueNegatives +
      (analyzeTransactionData table50 (fun _ => 0) (fun _ _ => 0)).metrics.confusionMatrix.falsePositives ≠
      ((analyzeTransactionData table50 (fun _ => 0) (fun _ _ => 0)).genuineCount : ℤ) := by
  have hf : List.countP
      (fun row => isClassFraud (rowLookup ["Class"] row "Class"))
      (List.replicate 50 [CellValue.num (JsNum.fin 0)]) = 0 := by
    rw [countP_replicate]
    simp [isClassFraud, rowLookup]
  have hg : List.countP
      (fun row => !isClassFraud (rowLookup ["Class"] row "Class"))
      (List.replicate 50 [CellValue.num (JsNum.fin 0)]) = 50 := by
    rw [countP_replicate]
    simp [isClassFraud, rowLookup]
  have hc : table50.headers.contains "Class" = true := by decide
  simp only [analyzeTransactionData, hc, Bool.not_true, Bool.false_eq_true, if_false,
    Bool.true_and, table50]
  norm_num [jsRound, hf, hg]

/-- C2 (amended): for every resolved run all four confusion counts are
nonnegative and truePositives plus falseNegatives equals the fraudulent
tally; trueNegatives plus falsePositives equals the genuine tally whenever
that tally is not congruent to 50 modulo 100, and overshoots it by exactly 1
when it is (both rounded halves round up). -/
theorem c2_confusion_partition (table : RawTable) (randConf : ℕ → ℚ) (randCorr : ℕ → ℕ → ℚ) :
    0 ≤ (analyzeTransactionData table randConf randCorr).metrics.confusionMatrix.truePositives ∧
    0 ≤ (analyzeTransactionData table randConf randCorr).metrics.confusionMatrix.falsePositives ∧
    0 ≤ (analyzeTransactionData table randConf randCorr).metrics.confusionMatrix.trueNegatives ∧
    0 ≤ (analyzeTransactionData table randConf randCorr).metrics.confusionMatrix.falseNegatives ∧
    (analyzeTransactionData table randConf randCorr).metrics.confusionMatrix.truePositives +
      (analyzeTransactionData table randConf randCorr).metrics.confusionMatrix.falseNegatives =
      ((analyzeTransactionData table randConf randCorr).fraudulentCount : ℤ) ∧
    (analyzeTransactionData table randConf randCorr).metrics.confusionMatrix.trueNegatives +
      (analyzeTransactionData table randConf randCorr).metrics.confusionMatrix.falsePositives =
      (if (analyzeTransactionData table randConf randCorr).genuineCount % 100 = 50 then
        ((analyzeTransactionData table randConf randCorr).genuineCount : ℤ) + 1
      else ((analyzeTransactionData table randConf randCorr).genuineCount : ℤ)) := by
  simp only [analyzeTransactionData]
  set f := (if !table.headers.contains "Class" then (⌊(table.data.length : ℚ) * 0.2⌋).toNat
    else table.data.countP fun row => table.headers.contains "Class" &&
      isClassFraud (rowLookup table.headers row "Class")) with hfdef
  set g := (if (!table.headers.contains "Class") = true then table.data.length - f
    else table.data.countP fun row => table.headers.contains "Class" &&
      !isClassFraud (rowLookup table.headers row "Class")) with hgdef
  simp only [jsRound_q92 f, jsRound_q01 g, jsRound_q99 g, jsRound_q08 f]
  refine ⟨Int.natCast_nonneg _, Int.natCast_nonneg _, Int.natCast_nonneg _,
    Int.natCast_nonneg _, ?_, ?_⟩
  · push_cast
    omega
  · rcases eq_or_ne (g % 100) 50 with h | h
    · rw [if_pos h]
      push_cast
      omega
    · rw [if_neg h]
      have h100 : g % 100 < 100 := Nat.mod_lt _ (by norm_num)
      push_cast
      interval_cases hh : g % 100 <;> omega

/-- C3 counterexample: on the one-element list the source divides the zero
sum of squared deviations by zero, so the std field is NaN (variance none),
not the claimed 0 (variance some 0): the record claimed by the design
document is not the one computed. -/
theorem c3_counterexample :
    calculateStats [5] ≠
      { min := 5, max := 5, mean := 5, median := 5, variance := some (JsNum.fin 0) } := by
  have h : (calculateStats [5]).variance = none := by
    simp [calculateStats, sortAsc, insertAsc, jsDiv]
  intro hc
  rw [hc] at h
  simp at h

/-- C3 (amended): computeStats of the empty list is the all-zero record
(the source returns std 0 directly there), and computeStats of a
one-element list has min, max, mean and median all equal to that element
but its std is NaN — the variance is 0 divided by 0 — rather than 0. -/
theorem c3_stats_degenerate (x : ℚ) :
    calculateStats [] =
      { min := 0, max := 0, mean := 0, median := 0, variance := some (JsNum.fin 0) } ∧
    calculateStats [x] =
      { min := x, max := x, mean := x, median := x, variance := none } := by
  constructor
  · rfl
  · simp [calculateStats, sortAsc, insertAsc, jsMin, jsMax, jsDiv]

/-- C4 counterexample: on an input whose lines are all blank the parser
faults with the TypeError of reading a property of undefined, which is not
the ParseError the design document names. -/
theorem c4_counterexample :
    parseCSV " \n\t\n" = Except.error JsError.typeError ∧
    JsError.typeError ≠ JsError.parseError := by
  constructor
  · have h : (jsSplit '\n' " \n\t\n").filter (fun l => !(jsTrim l == "")) = [] := by decide
    rw [parseCSV]
    simp only [h]
  · simp

/-- C4 (amended): for every input text whose lines are all blank after
trimming, the row parser faults, but with a TypeError (the source indexes
the empty filtered line list and calls split on undefined), not with a
ParseError; no code path of the module raises a ParseError. -/
theorem c4_blank_input_type_error (s : String)
    (h : ∀ line ∈ jsSplit '\n' s, jsTrim line = "") :
    parseCSV s = Except.error JsError.typeError := by
  have hfilter : (jsSplit '\n' s).filter (fun l => !(jsTrim l == "")) = [] := by
    rw [List.filter_eq_nil_iff]
    intro a ha
    rw [h a ha]
    simp
  rw [parseCSV]
  simp only [hfilter]

/-- C4 witness: the amended theorem applied to a concrete blank input. -/
theorem c4_witness : parseCSV "\n \n" = Except.error JsError.typeError :=
  c4_blank_input_type_error "\n \n" (by decide)

/-- Elements surviving signSplit come from the original list. -/
theorem signSplit_snd_subset (l : List Char) : ∀ c ∈ (signSplit l).2, c ∈ l := by
  cases l with
  | nil => intro c hc; simp [signSplit] at hc
  | cons a rest =>
    intro c hc
    by_cases h1 : a = '-'
    · simp only [signSplit, if_pos h1] at hc
      exact List.mem_cons_of_mem _ hc
    · by_cases h2 : a = '+'
      · simp only [signSplit, if_neg h1, if_pos h2] at hc
        exact List.mem_cons_of_mem _ hc
      · simp only [signSplit, if_neg h1, if_neg h2] at hc
        exact hc

/-- spanDigits consumes nothing when the head is not a digit. -/
theorem spanDigits_eq_self (l : List Char) (h : ∀ c ∈ l.head?, c.isDigit = false) :
    spanDigits l = ([], l) := by
  cases l with
  | nil => rfl
  | cons c cs =>
    have hc : c.isDigit = false := h c (by simp)
    simp [spanDigits, hc]

/-- parseFloatSyn fails on a string with no decimal digit and no letter I:
such a string has no numeral prefix and is not an Infinity literal. -/
theorem parseFloatSyn_none_of_no_digit (s : String)
    (hs : ∀ c ∈ s.data, c.isDigit = false ∧ c ≠ 'I') : parseFloatSyn s = none := by
  have hsub1 : ∀ c ∈ s.data.dropWhile jsWhitespace, c ∈ s.data := by
    intro c hc
    exact (List.dropWhile_sublist _).subset hc
  obtain ⟨neg, cs, hsig⟩ : ∃ neg cs, signSplit (s.data.dropWhile jsWhitespace) = (neg, cs) :=
    ⟨_, _, rfl⟩
  have hcsmem : ∀ c ∈ cs, c ∈ s.data := by
    intro c hc
    apply hsub1
    apply signSplit_snd_subset
    rw [hsig]
    exact hc
  have hcsprop : ∀ c ∈ cs, c.isDigit = false ∧ c ≠ 'I' := fun c hc => hs c (hcsmem c hc)
  rw [parseFloatSyn]
  simp only [hsig]
  have hInf : ¬ cs.take 8 = "Infinity".data := by
    cases cs with
    | nil => simp
    | cons c rest =>
      intro he
      have hhd : c = 'I' := by
        have := congrArg List.head? he
        simpa using this
      exact (hcsprop c (by simp)).2 hhd
  rw [if_neg hInf]
  have hspan1 : spanDigits cs = ([], cs) := by
    apply spanDigits_eq_self
    intro c hc
    exact (hcsprop c (List.mem_of_mem_head? hc)).1
  rw [hspan1]
  have hfrac : fracPart cs = ([], (fracPart cs).2) := by
    cases cs with
    | nil => rfl
    | cons c rest =>
      by_cases hdot : c = '.'
      · have hrest : spanDigits rest = ([], rest) := by
          apply spanDigits_eq_self
          intro d hd
          exact (hcsprop d (List.mem_cons_of_mem _ (List.mem_of_mem_head? hd))).1
        simp [fracPart, hdot, hrest]
      · simp [fracPart, hdot]
  rw [hfrac]
  simp

/-- C8 counterexample: the field 12abc, whose prefix but not whole text is
numeric, is stored by the parser as the number 12, not as the string the
claim requires. -/
theorem c8_counterexample :
    parseCSV "h\n12abc" =
      Except.ok { headers := ["h"], data := [[CellValue.num (JsNum.fin 12)]], totalRows := 1 } ∧
    CellValue.num (JsNum.fin 12) ≠ CellValue.str "12abc" := by
  constructor
  · have h1 : (jsSplit '\n' "h\n12abc").filter (fun l => !(jsTrim l == "")) = ["h", "12abc"] := by
      decide
    have h2 : (jsSplit ',' "h").map jsTrim = ["h"] := by decide
    have h3 : parseFloatSyn "12abc" = some (FloatSyn.finite false 12 0 0) := by decide
    have h4 : stripQuotes ((jsSplit ',' "12abc").getD 0 "") = "12abc" := by decide
    have h5 : List.range 1 = [0] := by decide
    simp only [parseCSV, h1, parseRow, h2, List.length_cons, List.length_nil, h5,
      List.map_cons, List.map_nil, h4, convertValue, jsParseFloat, h3, Option.map_some]
    simp [synValue]
  · simp

/-- C8 (amended): a data-line field is stored as a number exactly when
parseFloat finds a numeric prefix in it — not only when the full trimmed
field is numeric — and otherwise the field is stored as a string verbatim,
with no trimming of surrounding whitespace.  In particular 12abc is stored
as the number 12, a field of letters and spaces is stored untrimmed, and a
field with no digit and no letter I anywhere is always stored as the raw
string. -/
theorem c8_prefix_numeric_conversion :
    (∀ s : String, (∀ c ∈ s.data, c.isDigit = false ∧ c ≠ 'I') →
      convertValue s = CellValue.str s) ∧
    convertValue "12abc" = CellValue.num (JsNum.fin 12) ∧
    convertValue " abc " = CellValue.str " abc " := by
  refine ⟨?_, ?_, ?_⟩
  · intro s hs
    rw [convertValue, jsParseFloat, parseFloatSyn_none_of_no_digit s hs]
    rfl
  · have h3 : parseFloatSyn "12abc" = some (FloatSyn.finite false 12 0 0) := by decide
    rw [convertValue, jsParseFloat, h3]
    simp [synValue]
  · have h3 : parseFloatSyn " abc " = none := by decide
    rw [convertValue, jsParseFloat, h3]
    rfl

/-- C8 witness: the amended theorem applied to a concrete digit-free field,
which is stored as the raw string including its surrounding spaces. -/
theorem c8_witness : convertValue " x y " = CellValue.str " x y " :=
  c8_prefix_numeric_conversion.1 " x y " (by decide)

/-- parseRow always yields one value per header. -/
theorem parseRow_length (headers : List String) (line : String) :
    (parseRow headers line).length = headers.length := by
  simp [parseRow]

/-- getD of a map over a range evaluates the function below the bound. -/
theorem getD_map_range {α : Type} (n i : ℕ) (f : ℕ → α) (d : α) (h : i < n) :
    (((List.range n).map f).getD i d) = f i := by
  rw [List.getD_eq_getElem?_getD]
  simp [List.getElem?_map, List.getElem?_range, h]

/-- C9: every row built by the parser binds exactly one value per header: a
data line with fewer fields than headers fills the missing trailing
positions with the empty string (stored as the string value of the empty
field) without any out-of-range fault, and a data line with extra fields
yields the same row as its truncation to the header count, so the extras
are discarded. -/
theorem c9_row_padding_and_truncation :
    (∀ csv table, parseCSV csv = Except.ok table →
      ∀ row ∈ table.data, row.length = table.headers.length) ∧
    (∀ (headers : List String) (line : String) (j : ℕ),
      (jsSplit ',' line).length ≤ j → j < headers.length →
      (parseRow headers line).getD j (CellValue.str "") = CellValue.str "") ∧
    (∀ (headers : List String) (l1 l2 : String),
      (jsSplit ',' l1).take headers.length = (jsSplit ',' l2).take headers.length →
      parseRow headers l1 = parseRow headers l2) := by
  refine ⟨?_, ?_, ?_⟩
  · intro csv table h row hrow
    rcases hl : (jsSplit '\n' csv).filter (fun l => !(jsTrim l == "")) with _ | ⟨first, rest⟩
    · rw [parseCSV] at h
      simp only [hl] at h
      exact Except.noConfusion h
    · rw [parseCSV] at h
      simp only [hl] at h
      rw [Except.ok.injEq] at h
      subst h
      simp only at hrow
      obtain ⟨line, _, rfl⟩ := List.mem_map.mp hrow
      exact parseRow_length _ _
  · intro headers line j hlen hj
    rw [parseRow]
    rw [getD_map_range _ _ _ _ hj]
    rw [List.getD_eq_default _ _ hlen]
    rfl
  · intro headers l1 l2 htake
    rw [parseRow, parseRow]
    apply List.map_congr_left
    intro j hj
    have hjlt : j < headers.length := List.mem_range.mp hj
    have h1 : (jsSplit ',' l1).getD j "" = (jsSplit ',' l2).getD j "" := by
      rw [List.getD_eq_getElem?_getD, List.getD_eq_getElem?_getD,
        ← List.getElem?_take_of_lt (l := jsSplit ',' l1) (n := headers.length) hjlt,
        ← List.getElem?_take_of_lt (l := jsSplit ',' l2) (n := headers.length) hjlt, htake]
    rw [h1]

/-- C9 witness: the padding clause applied to a one-field line under two
headers, and the truncation clause applied to a three-field line under one
header. -/
theorem c9_witness :
    (parseRow ["a", "b"] "x").getD 1 (CellValue.str "") = CellValue.str "" ∧
    parseRow ["a"] "x,y,z" = parseRow ["a"] "x" := by
  constructor
  · exact c9_row_padding_and_truncation.2.1 ["a", "b"] "x" 1 (by decide) (by decide)
  · exact c9_row_padding_and_truncation.2.2 ["a"] "x,y,z" "x" (by decide)

/-- Complementary counts over a list add up to its length. -/
theorem countP_not_add {α : Type} (p : α → Bool) (l : List α) :
    l.countP (fun a => !(p a)) + l.countP p = l.length := by
  induction l with
  | nil => simp
  | cons a l ih =>
    rw [List.countP_cons, List.countP_cons, List.length_cons]
    by_cases h : p a <;> simp [h] <;> omega

/-- C10: in labelled mode every row whose Class value is neither the number
1 nor the string "1" — including rows with an empty or non-numeric class
cell — is tallied as genuine, the fraudulent tally counts exactly the rows
whose Class compares equal, and the two tallies always add up to
totalTransactions: no row is dropped for a malformed class value. -/
theorem c10_labeled_tally_partition (table : RawTable) (randConf : ℕ → ℚ)
    (randCorr : ℕ → ℕ → ℚ) (hclass : table.headers.contains "Class" = true) :
    (analyzeTransactionData table randConf randCorr).genuineCount +
      (analyzeTransactionData table randConf randCorr).fraudulentCount =
      (analyzeTransactionData table randConf randCorr).totalTransactions ∧
    (analyzeTransactionData table randConf randCorr).fraudulentCount =
      table.data.countP (fun row => isClassFraud (rowLookup table.headers row "Class")) ∧
    (analyzeTransactionData table randConf randCorr).genuineCount =
      table.data.countP (fun row => !(isClassFraud (rowLookup table.headers row "Class"))) := by
  simp only [analyzeTransactionData, hclass, Bool.not_true, Bool.false_eq_true, if_false,
    Bool.true_and]
  exact ⟨countP_not_add _ _, by trivial, by trivial⟩

/-- tableC10 is a labelled table with one malformed class cell and one
fraudulent row, the parse of a Class header over the lines abc and 1. -/
def tableC10 : RawTable :=
  { headers := ["Class"]
    data := [[CellValue.str "abc"], [CellValue.num (JsNum.fin 1)]]
    totalRows := 2 }

/-- C10 witness: the tally partition applied to tableC10. -/
theorem c10_witness :
    (analyzeTransactionData tableC10 (fun _ => 0) (fun _ _ => 0)).genuineCount +
      (analyzeTransactionData tableC10 (fun _ => 0) (fun _ _ => 0)).fraudulentCount =
      (analyzeTransactionData tableC10 (fun _ => 0) (fun _ _ => 0)).totalTransactions :=
  (c10_labeled_tally_partition tableC10 (fun _ => 0) (fun _ _ => 0) (by decide)).1

/-- Counting the indices below a cutoff within a range gives the smaller of
the cutoff and the range length. -/
theorem countP_range_lt (n fc : ℕ) :
    (List.range n).countP (fun i => decide (i < fc)) = min fc n := by
  induction n with
  | zero => simp
  | succ k ih =>
    rw [List.range_succ, List.countP_append, ih]
    by_cases h : k < fc <;> simp [List.countP_cons, h] <;> omega

/-- Mapping a function of the index only over an enumeration is mapping it
over the range of positions. -/
theorem enum_map_fst_only {α β : Type} (l : List α) (g : ℕ → β) :
    l.enum.map (fun p => g p.1) = (List.range l.length).map g := by
  have h1 : l.enum.map (fun p => g p.1) = (l.enum.map Prod.fst).map g := by
    rw [List.map_map]
    rfl
  rw [h1, List.enum_map_fst]

/-- C5: when the headers carry no Class column, the fraudulent tally is the
floor of a fifth of the row count, the rows marked fraudulent are exactly
the first that many in source order — so exactly that many outcomes are
fraudulent and all remaining rows are genuine — the genuine tally is the
rest, and every confidence, one uniform draw scaled to 100, lies between 0
and 100 with no band constraint tied to the label. -/
theorem c5_unlabeled_simulation (table : RawTable) (randConf : ℕ → ℚ)
    (randCorr : ℕ → ℕ → ℚ) (hclass : table.headers.contains "Class" = false)
    (hrand : ∀ i, 0 ≤ randConf i ∧ randConf i < 1) :
    (analyzeTransactionData table randConf randCorr).fraudulentCount =
      (⌊((analyzeTransactionData table randConf randCorr).totalTransactions : ℚ) * 0.2⌋).toNat ∧
    (analyzeTransactionData table randConf randCorr).outcomes.countP (fun o => o.isFraudulent) =
      (analyzeTransactionData table randConf randCorr).fraudulentCount ∧
    (∀ i o, (analyzeTransactionData table randConf randCorr).outcomes[i]? = some o →
      (o.isFraudulent = true ↔
        i < (analyzeTransactionData table randConf randCorr).fraudulentCount)) ∧
    (∀ o ∈ (analyzeTransactionData table randConf randCorr).outcomes,
      0 ≤ o.confidence ∧ o.confidence ≤ 100) ∧
    (analyzeTransactionData table randConf randCorr).genuineCount =
      (analyzeTransactionData table randConf randCorr).totalTransactions -
        (analyzeTransactionData table randConf randCorr).fraudulentCount := by
  simp only [analyzeTransactionData, hclass, Bool.not_false, if_true]
  set n := table.data.length with hn
  set fc := (⌊(n : ℚ) * 0.2⌋).toNat with hfc
  have hfcn : fc = (2 * n) / 10 := by
    rw [hfc, floor_q02]
    omega
  have hout : table.data.enum.map
      (fun p => ({ isFraudulent := decide (p.1 < fc), confidence := randConf p.1 * 100 } : Outcome)) =
      (List.range n).map
        (fun i => ({ isFraudulent := decide (i < fc), confidence := randConf i * 100 } : Outcome)) := by
    exact enum_map_fst_only table.data
      (fun i => ({ isFraudulent := decide (i < fc), confidence := randConf i * 100 } : Outcome))
  rw [hout]
  refine ⟨by trivial, ?_, ?_, ?_, by trivial⟩
  · rw [List.countP_map]
    have hcp : (List.range n).countP
        ((fun o => o.isFraudulent) ∘
          (fun i => ({ isFraudulent := decide (i < fc), confidence := randConf i * 100 } : Outcome))) =
        (List.range n).countP (fun i => decide (i < fc)) := rfl
    rw [hcp, countP_range_lt]
    omega
  · intro i o hio
    rw [List.getElem?_map] at hio
    rcases hin : (List.range n)[i]? with _ | j
    · rw [hin] at hio
      exact Option.noConfusion hio
    · rw [hin] at hio
      have hj : j = i := by
        have hi : i < n := by
          by_contra hcon
          rw [List.getElem?_eq_none (by rw [List.length_range]; omega)] at hin
          exact Option.noConfusion hin
        rw [List.getElem?_range hi] at hin
        exact (Option.some.inj hin).symm
      subst hj
      obtain rfl : ({ isFraudulent := decide (j < fc), confidence := randConf j * 100 } : Outcome) = o :=
        (Option.some.injEq _ _).mp hio
      simp
  · intro o ho
    obtain ⟨i, _, rfl⟩ := List.mem_map.mp ho
    constructor
    · exact mul_nonneg (hrand i).1 (by norm_num)
    · have h2 : randConf i * 100 ≤ 1 * 100 :=
        mul_le_mul_of_nonneg_right (le_of_lt (hrand i).2) (by norm_num)
      rw [one_mul] at h2
      exact h2

/-- table10 is an unlabelled table of ten rows with only an Amount column,
the parse of ten data lines each holding 5. -/
def table10 : RawTable :=
  { headers := ["Amount"]
    data := List.replicate 10 [CellValue.num (JsNum.fin 5)]
    totalRows := 10 }

/-- C5 witness: the unlabelled simulation applied to the ten-row table
marks exactly two rows fraudulent. -/
theorem c5_witness :
    (analyzeTransactionData table10 (fun _ => 0) (fun _ _ => 0)).fraudulentCount = 2 ∧
    (analyzeTransactionData table10 (fun _ => 0) (fun _ _ => 0)).outcomes.countP
      (fun o => o.isFraudulent) = 2 := by
  have h := c5_unlabeled_simulation table10 (fun _ => 0) (fun _ _ => 0) (by decide)
    (fun i => by norm_num)
  have ht : (analyzeTransactionData table10 (fun _ => 0) (fun _ _ => 0)).totalTransactions = 10 := by
    decide
  have h1 : (analyzeTransactionData table10 (fun _ => 0) (fun _ _ => 0)).fraudulentCount = 2 := by
    rw [h.1, ht]
    have h2 : ⌊((10 : ℕ) : ℚ) * 0.2⌋ = 2 := by norm_num
    rw [h2]
    rfl
  exact ⟨h1, by rw [h.2.1, h1]⟩

/-- C6: in labelled mode, for every row and every value of the random
source below 1, the resolved confidence lies in the outcome-conditioned
band: a row resolved fraudulent receives a confidence between 70 and 100,
and a row resolved genuine receives a confidence between 0 and 30. -/
theorem c6_labeled_confidence_bands (table : RawTable) (randConf : ℕ → ℚ)
    (randCorr : ℕ → ℕ → ℚ) (hclass : table.headers.contains "Class" = true)
    (hrand : ∀ i, 0 ≤ randConf i ∧ randConf i < 1) :
    ∀ o ∈ (analyzeTransactionData table randConf randCorr).outcomes,
      (o.isFraudulent = true → 70 ≤ o.confidence ∧ o.confidence ≤ 100) ∧
      (o.isFraudulent = false → 0 ≤ o.confidence ∧ o.confidence ≤ 30) := by
  simp only [analyzeTransactionData, hclass, Bool.not_true, Bool.false_eq_true, if_false]
  intro o ho
  obtain ⟨p, hp, rfl⟩ := List.mem_map.mp ho
  have hup : randConf p.1 * 100 ≤ 100 := by
    have h2 : randConf p.1 * 100 ≤ 1 * 100 :=
      mul_le_mul_of_nonneg_right (le_of_lt (hrand p.1).2) (by norm_num)
    rw [one_mul] at h2
    exact h2
  have hlo : 0 ≤ randConf p.1 * 100 := mul_nonneg (hrand p.1).1 (by norm_num)
  by_cases hfr : isClassFraud (rowLookup table.headers p.2 "Class")
  · refine ⟨fun _ => ?_, fun hcon => ?_⟩
    · simp only [hfr, if_true]
      exact ⟨le_max_left _ _, max_le (by norm_num) hup⟩
    · simp only [hfr] at hcon
      exact Bool.noConfusion hcon
  · have hfr2 : isClassFraud (rowLookup table.headers p.2 "Class") = false :=
      Bool.eq_false_iff.mpr hfr
    refine ⟨fun hcon => ?_, fun _ => ?_⟩
    · simp only [hfr2] at hcon
      exact Bool.noConfusion hcon
    · simp only [hfr2, Bool.false_eq_true, if_false]
      exact ⟨le_min (by norm_num) hlo, min_le_left _ _⟩

/-- tableC6 is a labelled table of a single fraudulent row, the parse of a
Class header over the single line 1. -/
def tableC6 : RawTable :=
  { headers := ["Class"]
    data := [[CellValue.num (JsNum.fin 1)]]
    totalRows := 1 }

/-- C6 witness: in the run over tableC6 with a zero random stream the single
row resolves fraudulent with confidence 70, inside the fraudulent band. -/
theorem c6_witness :
    70 ≤ (Outcome.mk true (70 : ℚ)).confidence ∧
    (Outcome.mk true (70 : ℚ)).confidence ≤ 100 := by
  have h := c6_labeled_confidence_bands tableC6 (fun _ => 0) (fun _ _ => 0) (by decide)
    (fun i => by norm_num)
  have henum : (tableC6.data).enum = [(0, [CellValue.num (JsNum.fin 1)])] := by decide
  have hfr : isClassFraud (rowLookup tableC6.headers [CellValue.num (JsNum.fin 1)] "Class") =
      true := by decide
  have hm : Outcome.mk true (70 : ℚ) ∈
      (analyzeTransactionData tableC6 (fun _ => 0) (fun _ _ => 0)).outcomes := by
    simp only [analyzeTransactionData, henum, hfr]
    have hc : tableC6.headers.contains "Class" = true := by decide
    simp only [hc, Bool.not_true, Bool.false_eq_true, if_false, List.map_cons, List.map_nil,
      if_true]
    have h70 : max (70 : ℚ) (0 * 100) = 70 := by
      rw [max_eq_left (by norm_num)]
    rw [h70]
    exact List.mem_singleton.mpr rfl
  exact (h _ hm).1 rfl

/-- corrUpper stays between -0.5 and 0.9 when the draw is in the interval
of Math.random. -/
theorem corrUpper_bounds (rand : ℕ → ℕ → ℚ) (i j : ℕ)
    (h0 : 0 ≤ rand i j) (h1 : rand i j < 1) :
    -0.5 ≤ corrUpper rand i j ∧ corrUpper rand i j ≤ 0.9 := by
  rw [corrUpper, jsRound]
  have hv : (rand i j * 1.4 - 0.5) * 100 = 140 * rand i j - 50 := by
    rw [show (1.4 : ℚ) = 14 / 10 by norm_num, show (0.5 : ℚ) = 5 / 10 by norm_num]
    ring
  rw [hv]
  have hlow : (-50 : ℤ) ≤ ⌊140 * rand i j - 50 + 1 / 2⌋ := by
    rw [Int.le_floor]
    push_cast
    linarith
  have hhigh : ⌊140 * rand i j - 50 + 1 / 2⌋ ≤ 90 := by
    have hlt : ⌊140 * rand i j - 50 + 1 / 2⌋ < 91 := by
      rw [Int.floor_lt]
      push_cast
      linarith
    omega
  constructor
  · rw [show (-0.5 : ℚ) = (-50 : ℚ) / 100 by norm_num]
    have hc : ((-50 : ℤ) : ℚ) ≤ (⌊140 * rand i j - 50 + 1 / 2⌋ : ℚ) := by
      exact_mod_cast hlow
    push_cast at hc
    linarith
  · rw [show (0.9 : ℚ) = (90 : ℚ) / 100 by norm_num]
    have hc : ((⌊140 * rand i j - 50 + 1 / 2⌋ : ℤ) : ℚ) ≤ ((90 : ℤ) : ℚ) := by
      exact_mod_cast hhigh
    push_cast at hc
    linarith

/-- corrEntry is symmetric in its two indices. -/
theorem corrEntry_symm (rand : ℕ → ℕ → ℚ) (i j : ℕ) :
    corrEntry rand i j = corrEntry rand j i := by
  rcases lt_trichotomy i j with h | h | h
  · rw [corrEntry, corrEntry, if_neg (Nat.ne_of_lt h), if_pos h,
      if_neg (Nat.ne_of_gt h), if_neg (Nat.lt_asymm h)]
  · subst h
    rfl
  · rw [corrEntry, corrEntry, if_neg (Nat.ne_of_gt h), if_neg (Nat.lt_asymm h),
      if_neg (Nat.ne_of_lt h), if_pos h]

/-- Matrix cell access of calculateCorrelations is corrEntry below the
feature count. -/
theorem calculateCorrelations_entry {α : Type} (features : List (String × α))
    (rand : ℕ → ℕ → ℚ) (i j : ℕ) (hi : i < features.length) (hj : j < features.length) :
    (((calculateCorrelations features rand).matrix.getD i []).getD j 0) =
      corrEntry rand i j := by
  rw [calculateCorrelations]
  simp only
  have hn : (features.map Prod.fst).length = features.length := List.length_map _ _
  rw [getD_map_range _ _ _ _ (by rw [hn]; exact hi)]
  rw [getD_map_range _ _ _ _ (by rw [hn]; exact hj)]

/-- C7: for every feature set and every random stream with draws in the
interval of Math.random, the correlation matrix is symmetric, carries
exactly 1 on the diagonal, and every off-diagonal placeholder entry lies
between -0.5 and 0.9. -/
theorem c7_correlation_matrix {α : Type} (features : List (String × α))
    (rand : ℕ → ℕ → ℚ) (hrand : ∀ i j, 0 ≤ rand i j ∧ rand i j < 1) :
    ∀ i j, i < features.length → j < features.length →
      ((((calculateCorrelations features rand).matrix.getD i []).getD j 0) =
        (((calculateCorrelations features rand).matrix.getD j []).getD i 0)) ∧
      ((((calculateCorrelations features rand).matrix.getD i []).getD i 0) = 1) ∧
      (i ≠ j →
        -0.5 ≤ (((calculateCorrelations features rand).matrix.getD i []).getD j 0) ∧
        (((calculateCorrelations features rand).matrix.getD i []).getD j 0) ≤ 0.9) := by
  intro i j hi hj
  rw [calculateCorrelations_entry features rand i j hi hj,
    calculateCorrelations_entry features rand j i hj hi,
    calculateCorrelations_entry features rand i i hi hi]
  refine ⟨corrEntry_symm rand i j, by rw [corrEntry, if_pos rfl], fun hij => ?_⟩
  rcases Nat.lt_or_ge i j with h | h
  · rw [corrEntry, if_neg hij, if_pos h]
    exact corrUpper_bounds rand i j (hrand i j).1 (hrand i j).2
  · have hji : j < i := Nat.lt_of_le_of_ne h (Ne.symm hij)
    rw [corrEntry, if_neg hij, if_neg (Nat.lt_asymm hji)]
    exact corrUpper_bounds rand j i (hrand j i).1 (hrand j i).2

/-- C7 witness: the matrix properties applied to a concrete two-feature set
with a zero random stream. -/
theorem c7_witness :
    (((calculateCorrelations [("V1", 0), ("V2", 0)] (fun _ _ => 0)).matrix.getD 0 []).getD 0 0)
      = 1 ∧
    -0.5 ≤
      (((calculateCorrelations [("V1", 0), ("V2", 0)] (fun _ _ => 0)).matrix.getD 0 []).getD 1 0) := by
  have h := c7_correlation_matrix (α := ℕ) [("V1", 0), ("V2", 0)] (fun _ _ => 0)
    (fun i j => by norm_num) 0 1 (by norm_num) (by norm_num)
  exact ⟨h.2.1, (h.2.2 (by norm_num)).1⟩

end FraudDetection
